import Mathlib

/-
Verification development for the churn-prediction pipeline
(src/ml/data_prep.py, src/ml/predict.py, src/ml/train_model.py).

The pandas/sklearn fragments the claims depend on are shallowly embedded:
a DataFrame is a list of named, dtyped columns of cells; floating-point
numbers are modelled as rationals (every IEEE-754 double is a rational);
sklearn LabelEncoder / StandardScaler are modelled by their documented
fit/transform semantics; fallible code returns Except/Option.
-/

namespace Churn

/-- A cell of a pandas column: a float (rational), a string, or NaN/None. -/
inductive Val where
  | num (q : ℚ)
  | str (s : String)
  | missing
deriving DecidableEq, Repr

/-- The pandas dtype split that the source code branches on:
object/category columns versus numeric columns. -/
inductive Dtype where
  | obj
  | numeric
deriving DecidableEq, Repr

/-- One pandas column: its dtype and its cells. -/
structure Col where
  dtype : Dtype
  cells : List Val
deriving DecidableEq, Repr

/-- A pandas DataFrame: a row count and named columns (in order). -/
structure DataFrame where
  nrows : Nat
  cols : List (String × Col)
deriving DecidableEq, Repr

/-- Lookup of a column by name (pandas label indexing; first match). -/
def findCol (n : String) : List (String × Col) → Option Col
  | [] => none
  | p :: ps => if p.1 = n then some p.2 else findCol n ps

/-- Numeric content of a cell, when it has one. -/
def toNum : Val → Option ℚ
  | .num q => some q
  | _ => none

/-- Value of a cell viewed as a float by a downstream estimator
(junk value 0 for non-numeric cells, which the pipeline rules out). -/
def valToQ : Val → ℚ
  | .num q => q
  | _ => 0

/-- Conversion applied by pandas astype(str): string repr of the cell. -/
def astypeStr : Val → String
  | .num q => toString q
  | .str s => s
  | .missing => "nan"

/-- The pandas median of a list of floats: middle element of the sorted
list (odd length) or mean of the two middle elements (even length);
none for an empty list (pandas returns NaN there, and fillna with NaN
leaves missing cells missing). -/
def median (xs : List ℚ) : Option ℚ :=
  let s := List.insertionSort (fun a b => a ≤ b) xs
  let n := s.length
  if n = 0 then none
  else if n % 2 = 1 then some (s.getD (n / 2) 0)
  else some ((s.getD (n / 2 - 1) 0 + s.getD (n / 2) 0) / 2)

/-- Median of the non-missing numeric cells of a column
(pandas Series.median skips NaN). -/
def colMedian (c : Col) : Option ℚ :=
  median (c.cells.filterMap toNum)

/-- Per-cell missing-value policy of both prepare_features and
preprocess_input: object dtype gets the literal string MISSING, numeric
dtype gets the median argument (stays missing when the median of an
all-missing column is NaN). -/
def fillnaCell (d : Dtype) (m : Option ℚ) : Val → Val
  | .missing =>
    match d with
    | .obj => .str "MISSING"
    | .numeric =>
      match m with
      | some q => .num q
      | none => .missing
  | v => v

/-- Column-level fillna: the median is computed from the column being
transformed, exactly as the source does at both fit and predict time. -/
def fillnaCol (c : Col) : Col :=
  ⟨c.dtype, c.cells.map (fillnaCell c.dtype (colMedian c))⟩

/-- The fillna loop over every column of a frame
(predict.py preprocess_input lines 116-120, data_prep.py lines 154-158). -/
def fillnaDf (df : DataFrame) : DataFrame :=
  ⟨df.nrows, df.cols.map (fun p => (p.1, fillnaCol p.2))⟩

/-- Lexicographic code-point comparison of character lists, the order
numpy.unique sorts string arrays by. -/
def charListLeB : List Char → List Char → Bool
  | [], _ => true
  | _ :: _, [] => false
  | a :: as, b :: bs =>
    if a.toNat < b.toNat then true
    else if b.toNat < a.toNat then false
    else charListLeB as bs

/-- Lexicographic code-point comparison of strings. -/
def strLeB (a b : String) : Bool := charListLeB a.data b.data

/-- sklearn LabelEncoder state: its classes_ array. -/
structure LabelEncoder where
  classes : List String
deriving DecidableEq, Repr

/-- LabelEncoder.fit: classes_ = numpy.unique of the values, i.e. the
deduplicated values in ascending lexicographic order. -/
def LabelEncoder.fit (vals : List String) : LabelEncoder :=
  ⟨List.insertionSort (fun a b => strLeB a b = true) vals.dedup⟩

/-- LabelEncoder.transform on one value: its index in classes_;
none models the ValueError sklearn raises on an unseen value. -/
def LabelEncoder.transform1 (e : LabelEncoder) (s : String) : Option Nat :=
  e.classes.indexOf? s

/-- The unseen-category fallback lambda of preprocess_input line 127:
x if x in known_classes else encoder.classes_[0]. -/
def fallbackCategory (e : LabelEncoder) (x : String) : String :=
  if x ∈ e.classes then x else e.classes.headD ""

/-- Encoded integer of one value at inference time: fallback mapping
followed by encoder.transform (predict.py lines 124-129). -/
def encodeVal (e : LabelEncoder) (x : String) : Option Nat :=
  e.transform1 (fallbackCategory e x)

/-- Encoding of a whole column at inference time: astype(str), fallback
for unseen values, then transform; the result column is integer dtype. -/
def encodeCol (e : LabelEncoder) (c : Col) : Col :=
  ⟨.numeric, c.cells.map (fun v =>
    match encodeVal e (astypeStr v) with
    | some k => .num k
    | none => .missing)⟩

/-- Instrumentation record of an sklearn fit/transform call site. -/
inductive SkCall where
  | encFit (col : String) (vals : List String)
  | encTransform (col : String)
  | scFit (x : List (List ℚ))
  | scTransform
deriving DecidableEq

/-- Whether an sklearn call fits (learns parameters) rather than only
transforming. -/
def SkCall.isFitCall : SkCall → Bool
  | .encFit _ _ => true
  | .scFit _ => true
  | _ => false

/-- One iteration of the encoder loop of preprocess_input (lines
122-129): when the encoder's column is present, re-encode it through the
persisted encoder (a transform call); otherwise skip. -/
def encodeStep (acc : DataFrame × List SkCall) (p : String × LabelEncoder) :
    DataFrame × List SkCall :=
  if (findCol p.1 acc.1.cols).isSome then
    (⟨acc.1.nrows,
      acc.1.cols.map (fun q => if q.1 = p.1 then (q.1, encodeCol p.2 q.2) else q)⟩,
     acc.2 ++ [SkCall.encTransform p.1])
  else acc

/-- The encoder loop of preprocess_input, instrumented with the sklearn
calls it makes (only encoder transforms, never fits). -/
def applyEncodersI (encoders : List (String × LabelEncoder)) (df : DataFrame) :
    DataFrame × List SkCall :=
  encoders.foldl encodeStep (df, [])

/-- The encoder loop of preprocess_input, value part. -/
def applyEncoders (encoders : List (String × LabelEncoder)) (df : DataFrame) : DataFrame :=
  (applyEncodersI encoders df).1

/-- Column assignment df[name] = c: replaces the column when the label
exists, otherwise appends it. -/
def setCol (df : DataFrame) (name : String) (c : Col) : DataFrame :=
  if (findCol name df.cols).isSome then
    ⟨df.nrows, df.cols.map (fun q => if q.1 = name then (q.1, c) else q)⟩
  else
    ⟨df.nrows, df.cols ++ [(name, c)]⟩

/-- A column of zeros of the frame height (the sentinel fill
df_processed[col] = 0 of preprocess_input line 136). -/
def zeroCol (nrows : Nat) : Col :=
  ⟨.numeric, List.replicate nrows (Val.num 0)⟩

/-- Column projection df[names]: the named columns in the given order
(preprocess_input line 138, prepare_features line 151). -/
def selectCols (df : DataFrame) (names : List String) : DataFrame :=
  ⟨df.nrows, names.map (fun n => (n, (findCol n df.cols).getD (zeroCol df.nrows)))⟩

/-- One iteration of the sentinel-fill loop of preprocess_input (lines
134-136): df_processed[col] = 0 for an expected feature that is absent. -/
def zeroFillStep (acc : DataFrame) (c : String) : DataFrame :=
  setCol acc c (zeroCol acc.nrows)

/-- The inference-time preprocessing preprocess_input (predict.py lines
102-140): fillna with per-batch medians / MISSING, re-encode categorical
columns through the persisted encoders with unseen-category fallback,
materialize absent expected features as zeros, and project to the
persisted feature order. -/
def preprocess_input (df : DataFrame) (encoders : List (String × LabelEncoder))
    (feature_names : List String) : DataFrame :=
  let d1 := fillnaDf df
  let d2 := applyEncoders encoders d1
  let missing_features := feature_names.filter (fun c => (findCol c d2.cols).isNone)
  let d3 := missing_features.foldl zeroFillStep d2
  selectCols d3 feature_names

/-- Instrumented preprocess_input: same value, plus the sklearn calls
made (only encoder transforms). -/
def preprocess_inputI (df : DataFrame) (encoders : List (String × LabelEncoder))
    (feature_names : List String) : DataFrame × List SkCall :=
  let d1 := fillnaDf df
  let d2log := applyEncodersI encoders d1
  let missing_features := feature_names.filter (fun c => (findCol c d2log.1.cols).isNone)
  let d3 := missing_features.foldl zeroFillStep d2log.1
  (selectCols d3 feature_names, d2log.2)

/-- Newton iteration used to model IEEE-754 double sqrt as a fixed
computable rational-valued function (a float sqrt does return a rational;
no verified property depends on the approximation quality). -/
def newtonSqrt : Nat → ℚ → ℚ → ℚ
  | 0, _, x => x
  | n + 1, q, x => newtonSqrt n q (if x = 0 then 0 else (x + q / x) / 2)

/-- Model of numpy.sqrt on the nonnegative floats the scaler produces. -/
def sqrtQ (q : ℚ) : ℚ :=
  if q ≤ 0 then 0 else newtonSqrt 8 q q

/-- sklearn StandardScaler fitted state: per-column mean_ and var_. -/
structure ScalerState where
  mean : List ℚ
  variance : List ℚ
deriving DecidableEq, Repr

/-- Mean of a list of floats (0 on the empty list, an edge the pipeline
rules out). -/
def listMean (xs : List ℚ) : ℚ := xs.sum / xs.length

/-- Population variance (ddof = 0) as StandardScaler computes it. -/
def listVar (xs : List ℚ) : ℚ :=
  (xs.map (fun x => (x - listMean xs) ^ 2)).sum / xs.length

/-- StandardScaler.fit on a row-major matrix: per-column mean and
population variance. -/
def scalerFit (x : List (List ℚ)) : ScalerState :=
  let colsOf := (List.range (x.headD []).length).map (fun j => x.map (fun r => r.getD j 0))
  ⟨colsOf.map listMean, colsOf.map listVar⟩

/-- StandardScaler scale_ for one column: sqrt of the variance, with
zero variance replaced by 1 (sklearn _handle_zeros_in_scale). -/
def scaleOf (v : ℚ) : ℚ := if v = 0 then 1 else sqrtQ v

/-- StandardScaler.transform of one row: (x - mean_) / scale_ per column. -/
def scaleRow (s : ScalerState) (row : List ℚ) : List ℚ :=
  (row.zip (s.mean.zip s.variance)).map (fun p => (p.1 - p.2.1) / scaleOf p.2.2)

/-- StandardScaler.transform of a row-major matrix. -/
def scalerTransformRows (s : ScalerState) (x : List (List ℚ)) : List (List ℚ) :=
  x.map (scaleRow s)

/-- The row-major float matrix a fitted estimator sees for a frame. -/
def toRows (df : DataFrame) : List (List ℚ) :=
  (List.range df.nrows).map (fun i =>
    df.cols.map (fun p => valToQ (p.2.cells.getD i Val.missing)))

/-- A loaded (pickled) estimator, opaque to this repository: a per-row
churn probability (predict_proba column 1) and a per-row class label. -/
structure Model where
  proba : List ℚ → ℚ
  classOf : List ℚ → ℤ

/-- predict_churn (predict.py lines 143-174) with all artifacts passed
explicitly: preprocess, scale through the persisted scaler when one
exists (transform only), then predict and predict_proba. -/
def predict_churn (df : DataFrame) (model : Model)
    (encoders : List (String × LabelEncoder)) (scaler : Option ScalerState)
    (feature_names : List String) : List ℤ × List ℚ :=
  let x := preprocess_input df encoders feature_names
  let rows := toRows x
  let rowsScaled :=
    match scaler with
    | some s => scalerTransformRows s rows
    | none => rows
  (rowsScaled.map model.classOf, rowsScaled.map model.proba)

/-- Instrumented predict_churn: the predictions, the post-call states of
the persisted encoders and scaler, and the log of sklearn calls made. -/
def predict_churnI (df : DataFrame) (model : Model)
    (encoders : List (String × LabelEncoder)) (scaler : Option ScalerState)
    (feature_names : List String) :
    (List ℤ × List ℚ) × (List (String × LabelEncoder) × Option ScalerState) × List SkCall :=
  let xlog := preprocess_inputI df encoders feature_names
  let rows := toRows xlog.1
  let scaled :=
    match scaler with
    | some s => (scalerTransformRows s rows, [SkCall.scTransform])
    | none => (rows, ([] : List SkCall))
  ((scaled.1.map model.classOf, scaled.1.map model.proba), (encoders, scaler), xlog.2 ++ scaled.2)

/-- The risk-tier bucketing of predict_single_customer (predict.py lines
198-205), with the float thresholds 0.7, 0.5, 0.3 as exact rationals. -/
def risk_category (p : ℚ) : String :=
  if p ≥ 7 / 10 then "High Risk"
  else if p ≥ 1 / 2 then "Medium Risk"
  else if p ≥ 3 / 10 then "Low Risk"
  else "Very Low Risk"

/-- Severity order of the four risk tiers, for the monotonicity property. -/
def riskRank (tier : String) : Nat :=
  if tier = "High Risk" then 3
  else if tier = "Medium Risk" then 2
  else if tier = "Low Risk" then 1
  else 0

/-- Result dict of predict_single_customer. -/
structure PredictionResult where
  prediction : ℤ
  churn_probability : ℚ
  risk_category : String
deriving DecidableEq, Repr

/-- A single customer record (dict of feature name to value). -/
abbrev Record := List (String × Val)

/-- Dtype pandas infers for a one-cell column built from a dict value. -/
def dtypeOfVal : Val → Dtype
  | .str _ => .obj
  | _ => .numeric

/-- pd.DataFrame([customer_data]): the one-row frame of a record. -/
def recordToDf (r : Record) : DataFrame :=
  ⟨1, r.map (fun p => (p.1, ⟨dtypeOfVal p.2, [p.2]⟩))⟩

/-- predict_single_customer (predict.py lines 177-211): wrap the record
into a one-row batch, run predict_churn, take element 0, and bucket the
probability into a risk tier. -/
def predict_single_customer (r : Record) (model : Model)
    (encoders : List (String × LabelEncoder)) (scaler : Option ScalerState)
    (feature_names : List String) : PredictionResult :=
  let out := predict_churn (recordToDf r) model encoders scaler feature_names
  let probability := out.2.headD 0
  let prediction := out.1.headD 0
  ⟨prediction, probability, risk_category probability⟩

/-- The declared feature list of data_prep.py (FEATURE_COLUMNS). -/
def FEATURE_COLUMNS : List String :=
  ["tenure_months", "tenure_days", "monthly_charges", "contract_type",
   "plan_type", "recency_days", "frequency", "monetary",
   "avg_transaction_value", "total_transactions", "days_since_last_transaction",
   "recency_score", "frequency_score", "monetary_score", "rfm_composite_score",
   "total_events", "active_days", "login_count", "feature_usage_count",
   "support_ticket_count", "app_crash_count", "engagement_rate",
   "avg_events_per_active_day", "avg_session_duration_minutes",
   "days_since_last_event", "events_last_7_days", "events_last_30_days",
   "events_last_90_days", "logins_last_30_days", "feature_usage_last_30_days",
   "days_since_last_login", "features_per_login", "problem_event_rate_pct",
   "engagement_recency_score", "engagement_frequency_score",
   "feature_adoption_score", "engagement_composite_score", "age", "gender",
   "segment", "acquisition_channel", "device_type", "initial_referral_credits"]

/-- The declared categorical columns of data_prep.py (CATEGORICAL_COLUMNS). -/
def CATEGORICAL_COLUMNS : List String :=
  ["contract_type", "plan_type", "gender", "segment", "acquisition_channel",
   "device_type"]

/-- The target column name of data_prep.py. -/
def TARGET_COLUMN : String := "churn_flag"

/-- Result tuple of prepare_features. -/
structure PrepResult where
  x : DataFrame
  y : List Val
  feature_names : List String
  encoders : List (String × LabelEncoder)
deriving DecidableEq, Repr

/-- The categorical-encoding loop of prepare_features (data_prep.py lines
160-167): a fresh LabelEncoder is fit_transform-ed on each categorical
column that is present, over the full (pre-split) frame. -/
def fitEncodersLoop (categorical_cols : List String) (x_raw : DataFrame) :
    DataFrame × List (String × LabelEncoder) :=
  categorical_cols.foldl
    (fun acc col =>
      match findCol col acc.1.cols with
      | some c =>
        let vals := c.cells.map astypeStr
        let le := LabelEncoder.fit vals
        (setCol acc.1 col
           ⟨.numeric, vals.map (fun s =>
             match le.transform1 s with
             | some k => Val.num k
             | none => Val.missing)⟩,
         acc.2 ++ [(col, le)])
      | none => acc)
    (x_raw, [])

/-- Training-time feature preparation prepare_features (data_prep.py
lines 120-171): select the declared features present in the input, raise
ValueError when the target column is absent, fillna (split-local medians
and MISSING), then fit-and-apply a label encoder per categorical column.
A missing feature column only produces a printed warning. -/
def prepare_features (df : DataFrame) (feature_cols categorical_cols : List String)
    (target_col : String) : Except String PrepResult :=
  let available_features := feature_cols.filter (fun c => (findCol c df.cols).isSome)
  if (findCol target_col df.cols).isNone then
    .error ("Target column " ++ target_col ++ " not found in dataset")
  else
    let x_raw := fillnaDf (selectCols df available_features)
    let y := ((findCol target_col df.cols).getD (zeroCol df.nrows)).cells
    let fitres := fitEncodersLoop categorical_cols x_raw
    .ok ⟨fitres.1, y, fitres.1.cols.map Prod.fst, fitres.2⟩

/-- scale_features (data_prep.py lines 197-215), instrumented: a fresh
scaler is fit_transform-ed on the training split and the test split goes
through transform only; the call log records what was fit on what. -/
def scale_featuresI (x_train x_test : List (List ℚ)) :
    (List (List ℚ) × List (List ℚ) × ScalerState) × List SkCall :=
  let s := scalerFit x_train
  let train_scaled := scalerTransformRows s x_train
  let test_scaled := scalerTransformRows s x_test
  ((train_scaled, test_scaled, s), [SkCall.scFit x_train, SkCall.scTransform])

/-- The preprocessing bundle persisted by save_preprocessors (data_prep.py
lines 218-239): encoders, scaler, feature names - and nothing else; in
particular no per-column imputation medians are persisted. -/
structure PreprocessorBundle where
  encoders : List (String × LabelEncoder)
  scaler : Option ScalerState
  feature_names : List String

/-- One row of the metrics dict built by evaluate_model (train_model.py
lines 77-113), restricted to the fields model comparison can see. -/
structure ModelMetrics where
  model_name : String
  roc_auc : ℚ
  train_roc_auc : ℚ
deriving DecidableEq, Repr

/-- overfit_gap = train_roc_auc - roc_auc (train_model.py line 101). -/
def overfit_gap (m : ModelMetrics) : ℚ := m.train_roc_auc - m.roc_auc

/-- compare_models (train_model.py lines 289-306): sort the metric rows
by roc_auc descending (a stable sort: pandas sort_values delegates to a
numpy sort that is an insertion sort on frames this small) and take the
model_name of row 0. Sorting looks at roc_auc only. -/
def compare_models (all_metrics : List ModelMetrics) : String × List ModelMetrics :=
  let comparison :=
    List.insertionSort (fun a b => b.roc_auc ≤ a.roc_auc) all_metrics
  ((comparison.headD ⟨"", 0, 0⟩).model_name, comparison)

/-- Modelled from the spec (model selection policy): rank by held-out
test ROC-AUC descending with ties broken by lower overfit gap. This is
the comparison the claim asserts, used only to diff against the
compare_models the code implements. -/
def compare_models_spec (all_metrics : List ModelMetrics) : String × List ModelMetrics :=
  let comparison :=
    List.insertionSort
      (fun a b => b.roc_auc < a.roc_auc ∨
        (b.roc_auc = a.roc_auc ∧ overfit_gap a ≤ overfit_gap b))
      all_metrics
  ((comparison.headD ⟨"", 0, 0⟩).model_name, comparison)

/-- The selected-model pointer written by train_pipeline (train_model.py
lines 405-408): the first component of compare_models. -/
def best_model_pointer (all_metrics : List ModelMetrics) : String :=
  (compare_models all_metrics).1

/-- The name map of load_best_model (predict.py lines 49-53). -/
def model_name_map : List (String × String) :=
  [("Logistic Regression", "logistic_regression"),
   ("Random Forest", "random_forest"),
   ("XGBoost", "xgboost")]

/-- Dict lookup with default (dict.get(key, default)). -/
def dictGetD (m : List (String × String)) (k d : String) : String :=
  match m with
  | [] => d
  | p :: ps => if p.1 = k then p.2 else dictGetD ps k d

/-- load_best_model (predict.py lines 38-56), modelled on the model key
it forwards to load_model: none stands for an absent pointer file, some
for the whitespace-stripped file content best_model_name (the code strips
at the read boundary, f.read().strip()). -/
def load_best_model (best_model_name : Option String) : String :=
  match best_model_name with
  | none => "xgboost"
  | some name => dictGetD model_name_map name "xgboost"

/-
Heap model of pandas object identity, used for the frame-effect claim:
DataFrames live in a store addressed by references; df.copy() allocates,
and every in-place mutation (fillna(inplace=True), column assignment) is
an explicit write to the reference it targets.
-/

/-- The empty frame, used as the out-of-range read default. -/
def emptyDf : DataFrame := ⟨0, []⟩

/-- A store of pandas DataFrame objects; references are indices. -/
structure Store where
  heap : List DataFrame
deriving Repr

/-- Dereference (out-of-range reads give the empty frame). -/
def Store.readRef (st : Store) (r : Nat) : DataFrame := st.heap.getD r emptyDf

/-- Allocation of a fresh DataFrame object (df.copy(), a slice .copy(),
or an indexing expression building a new frame). -/
def Store.alloc (st : Store) (df : DataFrame) : Store × Nat :=
  (⟨st.heap ++ [df]⟩, st.heap.length)

/-- In-place mutation of the object a reference points to. -/
def Store.writeRef (st : Store) (r : Nat) (df : DataFrame) : Store :=
  ⟨st.heap.set r df⟩

/-- One iteration of the encoder fit_transform loop of prepare_features
in the heap model: le.fit_transform on the column, assigned in place
into the X_encoded object. -/
def encFitStepS (xencRef : Nat) (acc : Store × List (String × LabelEncoder))
    (col : String) : Store × List (String × LabelEncoder) :=
  let xe := acc.1.readRef xencRef
  match findCol col xe.cols with
  | some c =>
    let vals := c.cells.map astypeStr
    let le := LabelEncoder.fit vals
    (acc.1.writeRef xencRef
       (setCol xe col
          ⟨.numeric, vals.map (fun s =>
            match le.transform1 s with
            | some k => Val.num k
            | none => Val.missing)⟩),
     acc.2 ++ [(col, le)])
  | none => acc

/-- prepare_features in the heap model (data_prep.py lines 120-171):
df_work = df.copy(); X_raw = df_work[available].copy(); the fillna loop
mutates X_raw in place; X_encoded = X_raw.copy(); the encoder loop
assigns encoded columns into X_encoded. The caller's frame is only read. -/
def prepare_featuresS (st : Store) (dfRef : Nat)
    (feature_cols categorical_cols : List String) (target_col : String) :
    Store × Except String (Nat × List Val × List String × List (String × LabelEncoder)) :=
  let st1r := st.alloc (st.readRef dfRef)
  let st1 := st1r.1
  let workRef := st1r.2
  let dfw := st1.readRef workRef
  let available_features := feature_cols.filter (fun c => (findCol c dfw.cols).isSome)
  if (findCol target_col dfw.cols).isNone then
    (st1, .error ("Target column " ++ target_col ++ " not found in dataset"))
  else
    let st2r := st1.alloc (selectCols dfw available_features)
    let st2 := st2r.1
    let xrawRef := st2r.2
    let y := ((findCol target_col dfw.cols).getD (zeroCol dfw.nrows)).cells
    let st3 := st2.writeRef xrawRef (fillnaDf (st2.readRef xrawRef))
    let st4r := st3.alloc (st3.readRef xrawRef)
    let st4 := st4r.1
    let xencRef := st4r.2
    let res := categorical_cols.foldl (encFitStepS xencRef) (st4, [])
    let feature_names := (res.1.readRef xencRef).cols.map Prod.fst
    (res.1, .ok (xencRef, y, feature_names, res.2))

/-- One iteration of the in-place encoder transform loop of
preprocess_input in the heap model. -/
def encTransformStepS (pRef : Nat) (acc : Store) (p : String × LabelEncoder) : Store :=
  let d := acc.readRef pRef
  if (findCol p.1 d.cols).isSome then
    acc.writeRef pRef
      ⟨d.nrows, d.cols.map (fun q => if q.1 = p.1 then (q.1, encodeCol p.2 q.2) else q)⟩
  else acc

/-- One iteration of the in-place sentinel-fill loop of preprocess_input
in the heap model. -/
def zeroFillStepS (pRef : Nat) (acc : Store) (c : String) : Store :=
  let d := acc.readRef pRef
  acc.writeRef pRef (setCol d c (zeroCol d.nrows))

/-- preprocess_input in the heap model (predict.py lines 102-140):
df_processed = df.copy(); the fillna loop and the encoder loop mutate
df_processed in place; the final df_processed[feature_names] builds a
fresh frame. The caller's frame is only read. -/
def preprocess_inputS (st : Store) (dfRef : Nat)
    (encoders : List (String × LabelEncoder)) (feature_names : List String) :
    Store × Nat :=
  let st1r := st.alloc (st.readRef dfRef)
  let st1 := st1r.1
  let pRef := st1r.2
  let st2 := st1.writeRef pRef (fillnaDf (st1.readRef pRef))
  let st3 := encoders.foldl (encTransformStepS pRef) st2
  let d3 := st3.readRef pRef
  let missing_features := feature_names.filter (fun c => (findCol c d3.cols).isNone)
  let st4 := missing_features.foldl (zeroFillStepS pRef) st3
  let st5r := st4.alloc (selectCols (st4.readRef pRef) feature_names)
  (st5r.1, st5r.2)

/-! ## General lemmas about the embedding -/

/-- Helper: the first element of a mapped list. -/
theorem headD_map {α β : Type} (f : α → β) (l : List α) (d : β) (d2 : α)
    (h : l ≠ []) : (l.map f).headD d = f (l.headD d2) := by
  cases l with
  | nil => exact absurd rfl h
  | cons a t => rfl

/-- Helper: getD at 0 reads the optional head. -/
theorem getD_zero_eq_head {α : Type} (l : List α) (d : α) :
    l.getD 0 d = (l.head?).getD d := by
  cases l <;> rfl

/-- The code-point order is reflexive. -/
theorem charListLeB_refl : ∀ l : List Char, charListLeB l l = true
  | [] => rfl
  | a :: as => by
    unfold charListLeB
    rw [if_neg (lt_irrefl a.toNat), if_neg (lt_irrefl a.toNat)]
    exact charListLeB_refl as

/-- The code-point order is total. -/
theorem charListLeB_total : ∀ a b : List Char,
    charListLeB a b = true ∨ charListLeB b a = true
  | [], _ => Or.inl rfl
  | _ :: _, [] => Or.inr rfl
  | a :: as, b :: bs => by
    unfold charListLeB
    rcases Nat.lt_trichotomy a.toNat b.toNat with hlt | heq | hgt
    · left
      rw [if_pos hlt]
    · rw [if_neg (by omega), if_neg (by omega), if_neg (by omega), if_neg (by omega)]
      exact charListLeB_total as bs
    · right
      rw [if_pos hgt]

/-- The code-point order is transitive. -/
theorem charListLeB_trans : ∀ a b c : List Char,
    charListLeB a b = true → charListLeB b c = true → charListLeB a c = true
  | [], _, _, _, _ => rfl
  | _ :: _, [], _, h1, _ => by simp [charListLeB] at h1
  | _ :: _, _ :: _, [], _, h2 => by simp [charListLeB] at h2
  | a :: as, b :: bs, c :: cs, h1, h2 => by
    unfold charListLeB at h1 h2 ⊢
    by_cases hab : a.toNat < b.toNat
    · by_cases hbc : b.toNat < c.toNat
      · rw [if_pos (by omega)]
      · rw [if_neg hbc] at h2
        by_cases hcb : c.toNat < b.toNat
        · rw [if_pos hcb] at h2
          simp at h2
        · rw [if_pos (show a.toNat < c.toNat by omega)]
    · rw [if_neg hab] at h1
      by_cases hba : b.toNat < a.toNat
      · rw [if_pos hba] at h1
        simp at h1
      · rw [if_neg hba] at h1
        by_cases hbc : b.toNat < c.toNat
        · rw [if_pos (show a.toNat < c.toNat by omega)]
        · rw [if_neg hbc] at h2
          by_cases hcb : c.toNat < b.toNat
          · rw [if_pos hcb] at h2
            simp at h2
          · rw [if_neg hcb] at h2
            rw [if_neg (show ¬a.toNat < c.toNat by omega),
              if_neg (show ¬c.toNat < a.toNat by omega)]
            exact charListLeB_trans as bs cs h1 h2

/-- Reflexivity for strings. -/
theorem strLeB_refl (a : String) : strLeB a a = true := charListLeB_refl a.data

/-- Totality for strings. -/
theorem strLeB_total (a b : String) : strLeB a b = true ∨ strLeB b a = true :=
  charListLeB_total a.data b.data

/-- Transitivity for strings. -/
theorem strLeB_trans (a b c : String) :
    strLeB a b = true → strLeB b c = true → strLeB a c = true :=
  charListLeB_trans a.data b.data c.data

/-! ## C1 -/

/-- C1: the claim says inference imputes missing numerics from persisted
training medians, but preprocess_input recomputes the median from the
inference batch itself. Concretely: with a training column of values
1, 2, 3 (median 2), an inference batch whose tenure column is
(missing, 10) gets the missing cell imputed with the batch median 10,
not the training median 2 - and the persisted bundle holds no medians
that could be used instead. -/
theorem c1_inference_recomputes_median :
    preprocess_input ⟨2, [("tenure", ⟨.numeric, [Val.missing, Val.num 10]⟩)]⟩ [] ["tenure"]
      = ⟨2, [("tenure", ⟨.numeric, [Val.num 10, Val.num 10]⟩)]⟩ ∧
    colMedian ⟨.numeric, [Val.num 1, Val.num 2, Val.num 3]⟩ = some 2 ∧
    (10 : ℚ) ≠ 2 := by
  refine ⟨by decide, by decide, by norm_num⟩

/-! ## C4 -/

/-- C4: the risk tier of a probability p in [0, 1] is High Risk iff
p is at least 0.70, Medium Risk iff at least 0.50 and below 0.70, Low
Risk iff at least 0.30 and below 0.50, Very Low Risk iff below 0.30;
and the tier rank is monotone in the probability. -/
theorem c4_risk_tiers :
    (∀ p : ℚ, 0 ≤ p → p ≤ 1 →
      ((risk_category p = "High Risk" ↔ 7 / 10 ≤ p) ∧
       (risk_category p = "Medium Risk" ↔ 1 / 2 ≤ p ∧ p < 7 / 10) ∧
       (risk_category p = "Low Risk" ↔ 3 / 10 ≤ p ∧ p < 1 / 2) ∧
       (risk_category p = "Very Low Risk" ↔ p < 3 / 10))) ∧
    (∀ p1 p2 : ℚ, p1 < p2 →
      riskRank (risk_category p1) ≤ riskRank (risk_category p2)) := by
  have hcat : ∀ p : ℚ, risk_category p = "High Risk" ∨
      risk_category p = "Medium Risk" ∨ risk_category p = "Low Risk" ∨
      risk_category p = "Very Low Risk" := by
    intro p
    unfold risk_category
    split_ifs <;> simp
  constructor
  · intro p _ _
    unfold risk_category
    by_cases h7 : p ≥ 7 / 10
    · rw [if_pos h7]
      exact ⟨iff_of_true rfl h7,
        iff_of_false (by decide) (fun h => absurd h.2 (not_lt.mpr h7)),
        iff_of_false (by decide) (fun h => absurd h.2 (by push_neg; linarith)),
        iff_of_false (by decide) (by push_neg; linarith)⟩
    · rw [if_neg h7]
      by_cases h5 : p ≥ 1 / 2
      · rw [if_pos h5]
        exact ⟨iff_of_false (by decide) h7,
          iff_of_true rfl ⟨h5, not_le.mp h7⟩,
          iff_of_false (by decide) (fun h => absurd h.2 (by push_neg; linarith)),
          iff_of_false (by decide) (by push_neg; linarith)⟩
      · rw [if_neg h5]
        by_cases h3 : p ≥ 3 / 10
        · rw [if_pos h3]
          exact ⟨iff_of_false (by decide) h7,
            iff_of_false (by decide) (fun h => absurd h.1 h5),
            iff_of_true rfl ⟨h3, not_le.mp h5⟩,
            iff_of_false (by decide) (by push_neg; linarith)⟩
        · rw [if_neg h3]
          exact ⟨iff_of_false (by decide) h7,
            iff_of_false (by decide) (fun h => absurd h.1 h5),
            iff_of_false (by decide) (fun h => absurd h.1 h3),
            iff_of_true rfl (not_le.mp h3)⟩
  · intro p1 p2 hlt
    unfold risk_category
    by_cases a7 : p1 ≥ 7 / 10
    · have b7 : p2 ≥ 7 / 10 := le_trans a7 hlt.le
      rw [if_pos a7, if_pos b7]
    · rw [if_neg a7]
      by_cases a5 : p1 ≥ 1 / 2
      · have b5 : p2 ≥ 1 / 2 := le_trans a5 hlt.le
        rw [if_pos a5]
        by_cases b7 : p2 ≥ 7 / 10
        · rw [if_pos b7]; decide
        · rw [if_neg b7, if_pos b5]
      · rw [if_neg a5]
        by_cases a3 : p1 ≥ 3 / 10
        · have b3 : p2 ≥ 3 / 10 := le_trans a3 hlt.le
          rw [if_pos a3]
          by_cases b7 : p2 ≥ 7 / 10
          · rw [if_pos b7]; decide
          · rw [if_neg b7]
            by_cases b5 : p2 ≥ 1 / 2
            · rw [if_pos b5]; decide
            · rw [if_neg b5, if_pos b3]
        · rw [if_neg a3]
          have h0 : riskRank "Very Low Risk" = 0 := by decide
          rw [h0]
          exact Nat.zero_le _

/-- Witness for C4 at the concrete probabilities 4/5 and 1/5 < 3/5. -/
theorem c4_witness :
    ((0 : ℚ) ≤ 4 / 5 ∧ (4 : ℚ) / 5 ≤ 1 ∧
      (risk_category (4 / 5) = "High Risk" ↔ (7 : ℚ) / 10 ≤ 4 / 5)) ∧
    ((1 : ℚ) / 5 < 3 / 5 ∧
      riskRank (risk_category (1 / 5)) ≤ riskRank (risk_category (3 / 5))) :=
  ⟨⟨by norm_num, by norm_num, (c4_risk_tiers.1 (4 / 5) (by norm_num) (by norm_num)).1⟩,
   ⟨by norm_num, c4_risk_tiers.2 (1 / 5) (3 / 5) (by norm_num)⟩⟩

/-! ## C5 -/

/-- C5 counterexample: two models tied on test ROC-AUC (1/2), the first
in input order having the larger overfit gap. The spec says the tie goes
to the lower overfit gap (model B); the code keeps input order and
selects model A. -/
theorem c5_counterexample :
    compare_models [⟨"A", 1 / 2, 9 / 10⟩, ⟨"B", 1 / 2, 3 / 5⟩]
      = ("A", [⟨"A", 1 / 2, 9 / 10⟩, ⟨"B", 1 / 2, 3 / 5⟩]) ∧
    compare_models_spec [⟨"A", 1 / 2, 9 / 10⟩, ⟨"B", 1 / 2, 3 / 5⟩]
      = ("B", [⟨"B", 1 / 2, 3 / 5⟩, ⟨"A", 1 / 2, 9 / 10⟩]) ∧
    overfit_gap ⟨"B", 1 / 2, 3 / 5⟩ < overfit_gap ⟨"A", 1 / 2, 9 / 10⟩ ∧
    ("A" : String) ≠ "B" := by
  refine ⟨?_, ?_, by norm_num [overfit_gap], by decide⟩
  · unfold compare_models
    simp only [List.insertionSort, List.orderedInsert]
    rw [if_pos (show (⟨"B", 1 / 2, 3 / 5⟩ : ModelMetrics).roc_auc
        ≤ (⟨"A", 1 / 2, 9 / 10⟩ : ModelMetrics).roc_auc by norm_num)]
    rfl
  · unfold compare_models_spec
    simp only [List.insertionSort, List.orderedInsert]
    norm_num [overfit_gap]

/-- C5 (amended): model comparison ranks by held-out test ROC-AUC in
descending order with no overfit-gap tie-break (ties keep input order),
and the top-ranked model name is the selected-model pointer written by
train_pipeline. -/
theorem c5_rank_by_roc_auc (ms : List ModelMetrics) (h : ms ≠ []) :
    (compare_models ms).2.Perm ms ∧
    List.Pairwise (fun a b => b.roc_auc ≤ a.roc_auc) (compare_models ms).2 ∧
    best_model_pointer ms = ((compare_models ms).2.headD ⟨"", 0, 0⟩).model_name ∧
    ∃ m ∈ ms, m.model_name = best_model_pointer ms ∧
      ∀ m2 ∈ ms, m2.roc_auc ≤ m.roc_auc := by
  have hcm : (compare_models ms).2
      = List.insertionSort (fun a b : ModelMetrics => b.roc_auc ≤ a.roc_auc) ms := rfl
  haveI : IsTotal ModelMetrics (fun a b => b.roc_auc ≤ a.roc_auc) :=
    ⟨fun a b => le_total b.roc_auc a.roc_auc⟩
  haveI : IsTrans ModelMetrics (fun a b => b.roc_auc ≤ a.roc_auc) :=
    ⟨fun _ _ _ hab hbc => le_trans hbc hab⟩
  have hperm : (compare_models ms).2.Perm ms := by
    rw [hcm]
    exact List.perm_insertionSort (fun a b => b.roc_auc ≤ a.roc_auc) ms
  have hsorted : List.Pairwise (fun a b => b.roc_auc ≤ a.roc_auc) (compare_models ms).2 := by
    rw [hcm]
    exact List.sorted_insertionSort (fun a b => b.roc_auc ≤ a.roc_auc) ms
  have hbp : best_model_pointer ms
      = ((compare_models ms).2.headD ⟨"", 0, 0⟩).model_name := rfl
  refine ⟨hperm, hsorted, hbp, ?_⟩
  have hne : (compare_models ms).2 ≠ [] := by
    intro hnil
    exact h (List.Perm.eq_nil (hnil ▸ hperm.symm))
  cases hcomp : (compare_models ms).2 with
  | nil => exact absurd hcomp hne
  | cons m0 rest =>
    refine ⟨m0, hperm.mem_iff.mp (by rw [hcomp]; exact List.mem_cons_self m0 rest), ?_, ?_⟩
    · rw [hbp, hcomp]
      rfl
    · intro m2 hm2
      have hm2c : m2 ∈ (compare_models ms).2 := hperm.mem_iff.mpr hm2
      rw [hcomp] at hm2c hsorted
      rcases List.mem_cons.mp hm2c with he | ht
      · rw [he]
      · exact (List.pairwise_cons.mp hsorted).1 m2 ht

/-- Witness for C5 at a concrete one-element metrics list. -/
theorem c5_witness :
    ([⟨"XGBoost", 9 / 10, 19 / 20⟩] : List ModelMetrics) ≠ [] ∧
    best_model_pointer [⟨"XGBoost", 9 / 10, 19 / 20⟩]
      = ((compare_models [⟨"XGBoost", 9 / 10, 19 / 20⟩]).2.headD ⟨"", 0, 0⟩).model_name :=
  ⟨by decide, (c5_rank_by_roc_auc [⟨"XGBoost", 9 / 10, 19 / 20⟩] (by decide)).2.2.1⟩

/-! ## C6 -/

/-- C6 counterexample: with the target column present but zero usable
feature columns (the input has only churn_flag), prepare_features does
not fail - it returns an empty feature matrix and only warns -, refuting
the second half of the claim. -/
theorem c6_counterexample :
    (prepare_features ⟨1, [("churn_flag", ⟨.numeric, [Val.num 1]⟩)]⟩
        FEATURE_COLUMNS CATEGORICAL_COLUMNS TARGET_COLUMN).toOption
      = some ⟨⟨1, []⟩, [Val.num 1], [], []⟩ := by
  decide

/-- C6 (amended): prepare_features raises (ValueError) exactly when the
target column is absent; when the target is present it succeeds even if
zero usable feature columns remain. -/
theorem c6_target_check (df : DataFrame) (fcols ccols : List String) (t : String) :
    ((findCol t df.cols).isNone →
      prepare_features df fcols ccols t
        = .error ("Target column " ++ t ++ " not found in dataset")) ∧
    ((findCol t df.cols).isSome →
      (prepare_features df fcols ccols t).toOption.isSome = true) := by
  constructor
  · intro h
    unfold prepare_features
    rw [if_pos h]
  · intro h
    obtain ⟨v, hv⟩ := Option.isSome_iff_exists.mp h
    unfold prepare_features
    rw [hv]
    rw [if_neg (by simp)]
    rfl

/-- Witness for C6: a frame without the target errors; a frame with the
target and no features succeeds. -/
theorem c6_witness :
    ((findCol TARGET_COLUMN (⟨1, [("other", ⟨Dtype.numeric, [Val.num 1]⟩)]⟩ : DataFrame).cols).isNone ∧
      prepare_features ⟨1, [("other", ⟨Dtype.numeric, [Val.num 1]⟩)]⟩ FEATURE_COLUMNS
        CATEGORICAL_COLUMNS TARGET_COLUMN
        = .error ("Target column " ++ TARGET_COLUMN ++ " not found in dataset")) ∧
    ((findCol TARGET_COLUMN (⟨1, [("churn_flag", ⟨Dtype.numeric, [Val.num 1]⟩)]⟩ : DataFrame).cols).isSome ∧
      (prepare_features ⟨1, [("churn_flag", ⟨Dtype.numeric, [Val.num 1]⟩)]⟩
        FEATURE_COLUMNS CATEGORICAL_COLUMNS TARGET_COLUMN).toOption.isSome = true) :=
  ⟨⟨by decide,
    (c6_target_check ⟨1, [("other", ⟨Dtype.numeric, [Val.num 1]⟩)]⟩ FEATURE_COLUMNS
      CATEGORICAL_COLUMNS TARGET_COLUMN).1 (by decide)⟩,
   ⟨by decide,
    (c6_target_check ⟨1, [("churn_flag", ⟨Dtype.numeric, [Val.num 1]⟩)]⟩ FEATURE_COLUMNS
      CATEGORICAL_COLUMNS TARGET_COLUMN).2 (by decide)⟩⟩

/-! ## C10 -/

/-- C10: when the pointer file holds a name outside the known set, the
lookup does not fail and falls back to the xgboost family - the same
default as when the pointer file is absent. -/
theorem c10_unknown_pointer_falls_back (name : String)
    (h : name ∉ ["Logistic Regression", "Random Forest", "XGBoost"]) :
    load_best_model (some name) = "xgboost" ∧
    load_best_model (some name) = load_best_model none := by
  simp only [List.mem_cons, List.not_mem_nil, or_false, not_or] at h
  obtain ⟨h1, h2, h3⟩ := h
  have e : dictGetD model_name_map name "xgboost" = "xgboost" := by
    simp only [dictGetD, model_name_map]
    rw [if_neg (fun e => h1 e.symm), if_neg (fun e => h2 e.symm),
      if_neg (fun e => h3 e.symm)]
  exact ⟨e, e⟩

/-- Witness for C10 at the concrete unknown name Gradient Boosting. -/
theorem c10_witness :
    "Gradient Boosting" ∉ ["Logistic Regression", "Random Forest", "XGBoost"] ∧
    load_best_model (some "Gradient Boosting") = "xgboost" ∧
    load_best_model (some "Gradient Boosting") = load_best_model none :=
  ⟨by decide,
   (c10_unknown_pointer_falls_back "Gradient Boosting" (by decide)).1,
   (c10_unknown_pointer_falls_back "Gradient Boosting" (by decide)).2⟩

/-! ## C3 -/

/-- C3: a categorical value outside an encoder's fitted category set is
deterministically mapped to the encoder's lexicographically-first known
category (classes_[0], which fit makes the minimum of the sorted class
list), its encoded integer is 0 - the same integer the fallback category
itself encodes to - and the inference preprocessing of such a value
succeeds, producing that integer. -/
theorem c3_unseen_category_fallback (tvs : List String) (h : tvs ≠ [])
    (v : String) (hv : v ∉ (LabelEncoder.fit tvs).classes) :
    encodeVal (LabelEncoder.fit tvs) v = some 0 ∧
    encodeVal (LabelEncoder.fit tvs) v
      = encodeVal (LabelEncoder.fit tvs) ((LabelEncoder.fit tvs).classes.headD "") ∧
    (∀ c ∈ (LabelEncoder.fit tvs).classes,
      strLeB ((LabelEncoder.fit tvs).classes.headD "") c = true) ∧
    preprocess_input ⟨1, [("cat", ⟨.obj, [Val.str v]⟩)]⟩
        [("cat", LabelEncoder.fit tvs)] ["cat"]
      = ⟨1, [("cat", ⟨.numeric, [Val.num 0]⟩)]⟩ := by
  have hne : (LabelEncoder.fit tvs).classes ≠ [] := by
    intro hnil
    have hlen : (LabelEncoder.fit tvs).classes.length = tvs.dedup.length :=
      (List.perm_insertionSort (fun a b : String => strLeB a b = true) tvs.dedup).length_eq
    rw [hnil] at hlen
    have hd : tvs.dedup = [] := List.length_eq_zero.mp hlen.symm
    exact h ((List.dedup_eq_nil _).mp hd)
  obtain ⟨a, t, hcl⟩ : ∃ a t, (LabelEncoder.fit tvs).classes = a :: t := by
    cases hclasses : (LabelEncoder.fit tvs).classes with
    | nil => exact absurd hclasses hne
    | cons a t => exact ⟨a, t, rfl⟩
  haveI : IsTotal String (fun a b => strLeB a b = true) := ⟨strLeB_total⟩
  haveI : IsTrans String (fun a b => strLeB a b = true) := ⟨strLeB_trans⟩
  have hsorted : List.Pairwise (fun x y : String => strLeB x y = true)
      (LabelEncoder.fit tvs).classes :=
    List.sorted_insertionSort (fun a b : String => strLeB a b = true) tvs.dedup
  have hv0 : encodeVal (LabelEncoder.fit tvs) v = some 0 := by
    unfold encodeVal fallbackCategory LabelEncoder.transform1
    rw [if_neg hv, hcl]
    simp [List.indexOf?, List.findIdx?]
  have hhead : encodeVal (LabelEncoder.fit tvs) ((LabelEncoder.fit tvs).classes.headD "")
      = some 0 := by
    unfold encodeVal fallbackCategory LabelEncoder.transform1
    rw [if_pos (by rw [hcl]; exact List.mem_cons_self a t), hcl]
    simp [List.indexOf?, List.findIdx?]
  refine ⟨hv0, by rw [hv0, hhead], ?_, ?_⟩
  · intro c hc
    rw [hcl] at hc hsorted ⊢
    rcases List.mem_cons.mp hc with he | ht
    · rw [he, List.headD_cons]
      exact strLeB_refl a
    · rw [List.headD_cons]
      exact (List.pairwise_cons.mp hsorted).1 c ht
  · unfold preprocess_input applyEncoders applyEncodersI
    simp only [fillnaDf, List.map_cons, List.map_nil, fillnaCol, fillnaCell, List.foldl,
      encodeStep, zeroFillStep, findCol, if_pos rfl, Option.isSome_some, if_true,
      encodeCol, astypeStr, List.filter, selectCols, zeroCol]
    rw [hv0]
    simp [findCol, selectCols]

/-- Witness for C3 at the spec's own example: an encoder fit on Mobile,
Desktop, Tablet receiving SmartTV. -/
theorem c3_witness :
    (["Mobile", "Desktop", "Tablet"] : List String) ≠ [] ∧
    "SmartTV" ∉ (LabelEncoder.fit ["Mobile", "Desktop", "Tablet"]).classes ∧
    encodeVal (LabelEncoder.fit ["Mobile", "Desktop", "Tablet"]) "SmartTV" = some 0 :=
  ⟨by decide, by decide,
   (c3_unseen_category_fallback ["Mobile", "Desktop", "Tablet"] (by decide)
     "SmartTV" (by decide)).1⟩

/-! ## C7 -/

/-- Column lookup distributes over a per-column value map. -/
theorem findCol_map_snd (g : Col → Col) (n : String) :
    ∀ l : List (String × Col),
      findCol n (l.map (fun p => (p.1, g p.2))) = (findCol n l).map g
  | [] => rfl
  | p :: ps => by
    simp only [List.map_cons, findCol]
    by_cases hp : p.1 = n
    · rw [if_pos hp, if_pos hp]
      rfl
    · rw [if_neg hp, if_neg hp]
      exact findCol_map_snd g n ps

/-- Column lookup after a name-targeted replacement. -/
theorem findCol_replace (nm : String) (newOf : Col → Col) (n : String) :
    ∀ l : List (String × Col),
      findCol n (l.map (fun q => if q.1 = nm then (q.1, newOf q.2) else q))
        = if n = nm then (findCol n l).map newOf else findCol n l
  | [] => by
    by_cases h : n = nm <;> simp [findCol, h]
  | q :: qs => by
    simp only [List.map_cons]
    by_cases hq : q.1 = nm
    · rw [if_pos hq]
      simp only [findCol]
      by_cases hn : q.1 = n
      · rw [if_pos hn, if_pos hn, if_pos (hn ▸ hq : n = nm)]
        rfl
      · rw [if_neg hn, if_neg hn, findCol_replace nm newOf n qs]
    · rw [if_neg hq]
      simp only [findCol]
      by_cases hn : q.1 = n
      · rw [if_pos hn, if_pos hn, if_neg (fun e => hq (hn.symm ▸ e : q.1 = nm))]
      · rw [if_neg hn, if_neg hn, findCol_replace nm newOf n qs]

/-- Column lookup over an append: the left list wins. -/
theorem findCol_append (n : String) : ∀ l1 l2 : List (String × Col),
    findCol n (l1 ++ l2)
      = match findCol n l1 with
        | some c => some c
        | none => findCol n l2
  | [], _ => rfl
  | p :: ps, l2 => by
    simp only [List.cons_append, findCol]
    by_cases hp : p.1 = n
    · rw [if_pos hp, if_pos hp]
    · rw [if_neg hp, if_neg hp]
      exact findCol_append n ps l2

/-- Assigning a column leaves the row count unchanged. -/
theorem setCol_nrows (df : DataFrame) (n : String) (c : Col) :
    (setCol df n c).nrows = df.nrows := by
  unfold setCol
  split <;> rfl

/-- After assigning a column, looking it up finds the assigned value. -/
theorem findCol_setCol_self (df : DataFrame) (n : String) (c : Col) :
    findCol n (setCol df n c).cols = some c := by
  unfold setCol
  by_cases h : (findCol n df.cols).isSome
  · rw [if_pos h]
    obtain ⟨v, hv⟩ := Option.isSome_iff_exists.mp h
    rw [findCol_replace n (fun _ => c) n df.cols, if_pos rfl, hv]
    rfl
  · rw [if_neg h]
    have hnone : findCol n df.cols = none := Option.not_isSome_iff_eq_none.mp h
    simp only [findCol_append, hnone]
    simp [findCol]

/-- Assigning one column does not disturb lookups of another. -/
theorem findCol_setCol_ne (df : DataFrame) (m n : String) (c : Col) (h : n ≠ m) :
    findCol n (setCol df m c).cols = findCol n df.cols := by
  unfold setCol
  by_cases hm : (findCol m df.cols).isSome
  · rw [if_pos hm]
    simp only [findCol_replace m (fun _ => c) n df.cols, if_neg h]
  · rw [if_neg hm]
    simp only [findCol_append]
    cases hf : findCol n df.cols with
    | some v => rfl
    | none =>
      show findCol n [(m, c)] = none
      unfold findCol
      rw [if_neg (fun e : m = n => h e.symm)]
      rfl

/-- The encoder loop never changes the row count. -/
theorem encodeFold_nrows :
    ∀ (encoders : List (String × LabelEncoder)) (acc : DataFrame × List SkCall),
      (encoders.foldl encodeStep acc).1.nrows = acc.1.nrows
  | [], _ => rfl
  | p :: ps, acc => by
    rw [List.foldl_cons, encodeFold_nrows ps]
    unfold encodeStep
    split <;> rfl

/-- The encoder loop never adds a column: an absent name stays absent. -/
theorem encodeFold_findCol_none (n : String) :
    ∀ (encoders : List (String × LabelEncoder)) (acc : DataFrame × List SkCall),
      findCol n acc.1.cols = none →
      findCol n ((encoders.foldl encodeStep acc).1.cols) = none
  | [], _, h => h
  | p :: ps, acc, h => by
    rw [List.foldl_cons]
    refine encodeFold_findCol_none n ps _ ?_
    unfold encodeStep
    split
    · simp only [findCol_replace p.1 (encodeCol p.2) n acc.1.cols, h]
      split <;> rfl
    · exact h

/-- The sentinel-fill loop never changes the row count. -/
theorem zeroFill_fold_nrows :
    ∀ (ms : List String) (acc : DataFrame),
      (ms.foldl zeroFillStep acc).nrows = acc.nrows
  | [], _ => rfl
  | m :: ms, acc => by
    rw [List.foldl_cons, zeroFill_fold_nrows ms]
    exact setCol_nrows acc m (zeroCol acc.nrows)

/-- Once a column holds the zero sentinel, the sentinel-fill loop keeps
it there. -/
theorem zeroFill_fold_preserve (c : String) (n : Nat) :
    ∀ (ms : List String) (acc : DataFrame), acc.nrows = n →
      findCol c acc.cols = some (zeroCol n) →
      findCol c (ms.foldl zeroFillStep acc).cols = some (zeroCol n)
  | [], _, _, h => h
  | m :: ms, acc, hn, h => by
    rw [List.foldl_cons]
    refine zeroFill_fold_preserve c n ms _ ?_ ?_
    · rw [zeroFillStep, setCol_nrows]
      exact hn
    · by_cases hm : c = m
      · rw [zeroFillStep, ← hm, hn, findCol_setCol_self]
      · rw [zeroFillStep, findCol_setCol_ne _ _ _ _ hm]
        exact h

/-- Every name the sentinel-fill loop visits ends up holding the zero
sentinel of the frame height. -/
theorem zeroFill_fold_mem (c : String) (n : Nat) :
    ∀ (ms : List String) (acc : DataFrame), acc.nrows = n → c ∈ ms →
      (findCol c acc.cols = none ∨ findCol c acc.cols = some (zeroCol n)) →
      findCol c (ms.foldl zeroFillStep acc).cols = some (zeroCol n)
  | [], _, _, hmem, _ => absurd hmem (List.not_mem_nil c)
  | m :: ms, acc, hn, hmem, hdisj => by
    rw [List.foldl_cons]
    by_cases hm : c = m
    · refine zeroFill_fold_preserve c n ms _ ?_ ?_
      · rw [zeroFillStep, setCol_nrows]
        exact hn
      · rw [zeroFillStep, ← hm, hn, findCol_setCol_self]
    · have hmem2 : c ∈ ms := by
        rcases List.mem_cons.mp hmem with he | ht
        · exact absurd he hm
        · exact ht
      refine zeroFill_fold_mem c n ms _ ?_ hmem2 ?_
      · rw [zeroFillStep, setCol_nrows]
        exact hn
      · rw [zeroFillStep, findCol_setCol_ne _ _ _ _ hm]
        exact hdisj

/-- Column projection produces exactly the requested names in order. -/
theorem selectCols_names (df : DataFrame) (ns : List String) :
    (selectCols df ns).cols.map Prod.fst = ns := by
  unfold selectCols
  simp [List.map_map, Function.comp_def]

/-- Column projection at a requested name reads the source column, with
the zero sentinel as the default. -/
theorem findCol_selectCols_mem (df : DataFrame) (c : String) :
    ∀ ns : List String, c ∈ ns →
      findCol c (selectCols df ns).cols
        = some ((findCol c df.cols).getD (zeroCol df.nrows))
  | [], hmem => absurd hmem (List.not_mem_nil c)
  | nn :: ns, hmem => by
    unfold selectCols
    simp only [List.map_cons, findCol]
    by_cases hn : nn = c
    · rw [if_pos hn, hn]
    · rw [if_neg hn]
      have hmem2 : c ∈ ns := by
        rcases List.mem_cons.mp hmem with he | ht
        · exact absurd he.symm hn
        · exact ht
      exact findCol_selectCols_mem df c ns hmem2

/-- C7: the preprocessed output has exactly the bundle's feature columns
in the bundle's recorded order, and any expected feature absent from the
input is materialized as a full column of the sentinel zero. -/
theorem c7_missing_features_zero_filled (df : DataFrame)
    (encoders : List (String × LabelEncoder)) (fns : List String) (c : String)
    (hc : c ∈ fns) (habsent : findCol c df.cols = none) :
    (preprocess_input df encoders fns).cols.map Prod.fst = fns ∧
    findCol c (preprocess_input df encoders fns).cols
      = some ⟨Dtype.numeric, List.replicate df.nrows (Val.num 0)⟩ := by
  unfold preprocess_input applyEncoders applyEncodersI
  refine ⟨selectCols_names _ fns, ?_⟩
  have h1 : findCol c (fillnaDf df).cols = none := by
    unfold fillnaDf
    rw [findCol_map_snd fillnaCol c df.cols, habsent]
    rfl
  have h2 : findCol c (encoders.foldl encodeStep (fillnaDf df, [])).1.cols = none :=
    encodeFold_findCol_none c encoders (fillnaDf df, []) h1
  have hn2 : (encoders.foldl encodeStep (fillnaDf df, [])).1.nrows = df.nrows :=
    encodeFold_nrows encoders (fillnaDf df, [])
  have hmem : c ∈ fns.filter
      (fun cc => (findCol cc (encoders.foldl encodeStep (fillnaDf df, [])).1.cols).isNone) :=
    List.mem_filter.mpr ⟨hc, by rw [h2]; rfl⟩
  have h3 : findCol c ((fns.filter
        (fun cc => (findCol cc (encoders.foldl encodeStep (fillnaDf df, [])).1.cols).isNone)).foldl
        zeroFillStep (encoders.foldl encodeStep (fillnaDf df, [])).1).cols
      = some (zeroCol df.nrows) :=
    zeroFill_fold_mem c df.nrows _ _ hn2 hmem (Or.inl h2)
  rw [findCol_selectCols_mem _ c fns hc, h3]
  rw [zeroFill_fold_nrows, hn2]
  rfl

/-- Witness for C7: a two-row frame missing the expected feature b. -/
theorem c7_witness :
    ("b" ∈ ["a", "b"]) ∧
    findCol "b" [("a", (⟨Dtype.numeric, [Val.num 1, Val.num 2]⟩ : Col))] = none ∧
    (preprocess_input ⟨2, [("a", ⟨Dtype.numeric, [Val.num 1, Val.num 2]⟩)]⟩
        [] ["a", "b"]).cols.map Prod.fst = ["a", "b"] ∧
    findCol "b" (preprocess_input ⟨2, [("a", ⟨Dtype.numeric, [Val.num 1, Val.num 2]⟩)]⟩
        [] ["a", "b"]).cols
      = some ⟨Dtype.numeric, List.replicate 2 (Val.num 0)⟩ :=
  ⟨by decide, by decide,
   (c7_missing_features_zero_filled ⟨2, [("a", ⟨Dtype.numeric, [Val.num 1, Val.num 2]⟩)]⟩
     [] ["a", "b"] "b" (by decide) (by decide)).1,
   (c7_missing_features_zero_filled ⟨2, [("a", ⟨Dtype.numeric, [Val.num 1, Val.num 2]⟩)]⟩
     [] ["a", "b"] "b" (by decide) (by decide)).2⟩

/-! ## C9 -/

/-- getD into the left part of an append. -/
theorem getD_append_lt {α : Type} (d : α) :
    ∀ (l l2 : List α) (r : Nat), r < l.length → (l ++ l2).getD r d = l.getD r d
  | [], _, r, h => absurd h (Nat.not_lt_zero r)
  | _ :: _, _, 0, _ => rfl
  | _ :: as, l2, r + 1, h => getD_append_lt d as l2 r (Nat.lt_of_succ_lt_succ h)

/-- getD away from a set index. -/
theorem getD_set_ne {α : Type} (d a : α) :
    ∀ (l : List α) (i r : Nat), r ≠ i → (l.set i a).getD r d = l.getD r d
  | [], _, _, _ => rfl
  | _ :: _, 0, 0, h => absurd rfl h
  | _ :: _, 0, _ + 1, _ => rfl
  | _ :: _, _ + 1, 0, _ => rfl
  | _ :: bs, i + 1, r + 1, h =>
    getD_set_ne d a bs i r (fun e => h (by rw [e]))

/-- Allocation does not disturb reads of existing references. -/
theorem readRef_alloc_lt (st : Store) (df : DataFrame) (r : Nat)
    (h : r < st.heap.length) : (st.alloc df).1.readRef r = st.readRef r :=
  getD_append_lt emptyDf st.heap [df] r h

/-- A write does not disturb reads of other references. -/
theorem readRef_write_ne (st : Store) (df : DataFrame) (w r : Nat) (h : r ≠ w) :
    (st.writeRef w df).readRef r = st.readRef r :=
  getD_set_ne emptyDf df st.heap w r h

/-- Allocation grows the heap by one object. -/
theorem alloc_length (st : Store) (df : DataFrame) :
    (st.alloc df).1.heap.length = st.heap.length + 1 := by
  simp [Store.alloc]

/-- A write keeps the heap size. -/
theorem write_length (st : Store) (w : Nat) (df : DataFrame) :
    (st.writeRef w df).heap.length = st.heap.length := by
  simp [Store.writeRef]

/-- The encoder fit loop of the heap model writes only to X_encoded. -/
theorem encFitFold_readRef (xencRef r : Nat) (h : r ≠ xencRef) :
    ∀ (cols : List String) (acc : Store × List (String × LabelEncoder)),
      ((cols.foldl (encFitStepS xencRef) acc).1).readRef r = acc.1.readRef r
  | [], _ => rfl
  | col :: cols, acc => by
    rw [List.foldl_cons, encFitFold_readRef xencRef r h cols]
    unfold encFitStepS
    cases hfc : findCol col ((acc.1.readRef xencRef)).cols with
    | some c =>
      simp only [hfc]
      exact readRef_write_ne _ _ _ _ h
    | none =>
      simp only [hfc]

/-- The in-place encoder transform loop writes only to df_processed. -/
theorem encTransformFold_readRef (pRef r : Nat) (h : r ≠ pRef) :
    ∀ (encoders : List (String × LabelEncoder)) (acc : Store),
      (encoders.foldl (encTransformStepS pRef) acc).readRef r = acc.readRef r
  | [], _ => rfl
  | p :: ps, acc => by
    rw [List.foldl_cons, encTransformFold_readRef pRef r h ps]
    simp only [encTransformStepS]
    split
    · exact readRef_write_ne _ _ _ _ h
    · rfl

/-- The in-place sentinel-fill loop writes only to df_processed. -/
theorem zeroFillFoldS_readRef (pRef r : Nat) (h : r ≠ pRef) :
    ∀ (ms : List String) (acc : Store),
      (ms.foldl (zeroFillStepS pRef) acc).readRef r = acc.readRef r
  | [], _ => rfl
  | m :: ms, acc => by
    rw [List.foldl_cons, zeroFillFoldS_readRef pRef r h ms]
    exact readRef_write_ne _ _ _ _ h

/-- The in-place encoder transform loop keeps the heap size. -/
theorem encTransformFold_length (pRef : Nat) :
    ∀ (encoders : List (String × LabelEncoder)) (acc : Store),
      (encoders.foldl (encTransformStepS pRef) acc).heap.length = acc.heap.length
  | [], _ => rfl
  | p :: ps, acc => by
    rw [List.foldl_cons, encTransformFold_length pRef ps]
    simp only [encTransformStepS]
    split
    · exact write_length _ _ _
    · rfl

/-- The in-place sentinel-fill loop keeps the heap size. -/
theorem zeroFillFoldS_length (pRef : Nat) :
    ∀ (ms : List String) (acc : Store),
      (ms.foldl (zeroFillStepS pRef) acc).heap.length = acc.heap.length
  | [], _ => rfl
  | m :: ms, acc => by
    rw [List.foldl_cons, zeroFillFoldS_length pRef ms]
    exact write_length _ _ _

/-- C9: neither training-time prepare_features nor inference-time
preprocess_input mutates the caller's DataFrame object: every fillna,
encoding and column assignment happens on copies allocated inside the
call, so the heap cell the caller's reference points to is unchanged. -/
theorem c9_caller_dataframe_unchanged (st : Store) (dfRef : Nat)
    (fcols ccols : List String) (t : String)
    (encoders : List (String × LabelEncoder)) (fns : List String)
    (h : dfRef < st.heap.length) :
    (prepare_featuresS st dfRef fcols ccols t).1.readRef dfRef = st.readRef dfRef ∧
    (preprocess_inputS st dfRef encoders fns).1.readRef dfRef = st.readRef dfRef := by
  constructor
  · unfold prepare_featuresS
    set st1 := (st.alloc (st.readRef dfRef)).1 with hst1
    have l1 : st1.heap.length = st.heap.length + 1 := alloc_length st _
    simp only []
    split
    · exact readRef_alloc_lt st _ dfRef h
    · set sel := selectCols (st1.readRef (st.alloc (st.readRef dfRef)).2)
        (fcols.filter (fun c =>
          (findCol c (st1.readRef (st.alloc (st.readRef dfRef)).2).cols).isSome)) with hsel
      set st2 := (st1.alloc sel).1 with hst2
      have l2 : st2.heap.length = st.heap.length + 2 := by
        rw [hst2, alloc_length, l1]
      have hxraw : (st1.alloc sel).2 = st.heap.length + 1 := by
        show st1.heap.length = st.heap.length + 1
        exact l1
      set st3 := st2.writeRef (st1.alloc sel).2 (fillnaDf (st2.readRef (st1.alloc sel).2))
        with hst3
      have l3 : st3.heap.length = st.heap.length + 2 := by
        rw [hst3, write_length]
        exact l2
      have hxenc : (st3.alloc (st3.readRef (st1.alloc sel).2)).2 = st.heap.length + 2 := by
        show st3.heap.length = st.heap.length + 2
        exact l3
      set st4 := (st3.alloc (st3.readRef (st1.alloc sel).2)).1 with hst4
      rw [encFitFold_readRef _ dfRef (by rw [hxenc]; omega)]
      show st4.readRef dfRef = st.readRef dfRef
      rw [hst4, readRef_alloc_lt _ _ _ (by rw [l3]; omega)]
      rw [hst3, readRef_write_ne _ _ _ _ (by rw [hxraw]; omega)]
      rw [hst2, readRef_alloc_lt _ _ _ (by rw [l1]; omega)]
      rw [hst1, readRef_alloc_lt _ _ _ h]
  · unfold preprocess_inputS
    simp only []
    set st1 := (st.alloc (st.readRef dfRef)).1 with hst1
    have l1 : st1.heap.length = st.heap.length + 1 := alloc_length st _
    have hpref : (st.alloc (st.readRef dfRef)).2 = st.heap.length := rfl
    set st2 := st1.writeRef (st.alloc (st.readRef dfRef)).2
      (fillnaDf (st1.readRef (st.alloc (st.readRef dfRef)).2)) with hst2
    have l2 : st2.heap.length = st.heap.length + 1 := by
      rw [hst2, write_length]
      exact l1
    set st3 := encoders.foldl (encTransformStepS (st.alloc (st.readRef dfRef)).2) st2
      with hst3
    have l3 : st3.heap.length = st.heap.length + 1 := by
      rw [hst3, encTransformFold_length]
      exact l2
    set ms := fns.filter (fun c => (findCol c (st3.readRef
      (st.alloc (st.readRef dfRef)).2).cols).isNone) with hms
    set st4 := ms.foldl (zeroFillStepS (st.alloc (st.readRef dfRef)).2) st3 with hst4
    have l4 : st4.heap.length = st.heap.length + 1 := by
      rw [hst4, zeroFillFoldS_length]
      exact l3
    rw [readRef_alloc_lt _ _ _ (by rw [l4]; omega)]
    rw [hst4, zeroFillFoldS_readRef _ dfRef (by rw [hpref]; omega)]
    rw [hst3, encTransformFold_readRef _ dfRef (by rw [hpref]; omega)]
    rw [hst2, readRef_write_ne _ _ _ _ (by rw [hpref]; omega)]
    rw [hst1, readRef_alloc_lt _ _ _ h]

/-- Witness for C9: a one-object heap, its only frame passed to both
functions. -/
theorem c9_witness :
    (0 < (Store.mk [⟨1, [("churn_flag", ⟨Dtype.numeric, [Val.num 1]⟩)]⟩]).heap.length) ∧
    (prepare_featuresS ⟨[⟨1, [("churn_flag", ⟨Dtype.numeric, [Val.num 1]⟩)]⟩]⟩ 0
        FEATURE_COLUMNS CATEGORICAL_COLUMNS TARGET_COLUMN).1.readRef 0
      = (⟨[⟨1, [("churn_flag", ⟨Dtype.numeric, [Val.num 1]⟩)]⟩]⟩ : Store).readRef 0 ∧
    (preprocess_inputS ⟨[⟨1, [("churn_flag", ⟨Dtype.numeric, [Val.num 1]⟩)]⟩]⟩ 0
        [] ["churn_flag"]).1.readRef 0
      = (⟨[⟨1, [("churn_flag", ⟨Dtype.numeric, [Val.num 1]⟩)]⟩]⟩ : Store).readRef 0 :=
  ⟨by decide,
   (c9_caller_dataframe_unchanged ⟨[⟨1, [("churn_flag", ⟨Dtype.numeric, [Val.num 1]⟩)]⟩]⟩ 0
     FEATURE_COLUMNS CATEGORICAL_COLUMNS TARGET_COLUMN [] ["churn_flag"] (by decide)).1,
   (c9_caller_dataframe_unchanged ⟨[⟨1, [("churn_flag", ⟨Dtype.numeric, [Val.num 1]⟩)]⟩]⟩ 0
     FEATURE_COLUMNS CATEGORICAL_COLUMNS TARGET_COLUMN [] ["churn_flag"] (by decide)).2⟩

/-! ## C8 -/

/-- Five-row training frame whose categorical column holds five distinct
values: any 80/20 train/test split leaves at most four rows in the
training split, so no training-split fit can produce the five-class
encoder the code builds. -/
def dfC8 : DataFrame :=
  ⟨5, [("g", ⟨.obj, [Val.str "A", Val.str "B", Val.str "C", Val.str "D", Val.str "E"]⟩),
       ("churn_flag", ⟨.numeric, [Val.num 0, Val.num 1, Val.num 0, Val.num 1, Val.num 0]⟩)]⟩

/-- C8 counterexample: prepare_features fits the label encoders on the
full pre-split frame (data_prep.py lines 160-167 run before
create_train_test_split), so on dfC8 the encoder for g has all five
categories - a class set no fit on any training split (at most 4 of the
5 rows) could produce. This refutes the claim that the encoders are fit
on the training split; the never-refit part is the amended theorem. -/
theorem c8_counterexample :
    (prepare_features dfC8 ["g"] ["g"] TARGET_COLUMN).toOption.map PrepResult.encoders
      = some [("g", ⟨["A", "B", "C", "D", "E"]⟩)] ∧
    ∀ trainVals : List String, trainVals.length ≤ 4 →
      LabelEncoder.fit trainVals ≠ ⟨["A", "B", "C", "D", "E"]⟩ := by
  constructor
  · decide
  · intro tv hlen hcontra
    have h1 : (LabelEncoder.fit tv).classes.length ≤ tv.length := by
      unfold LabelEncoder.fit
      rw [(List.perm_insertionSort (fun a b : String => strLeB a b = true)
        tv.dedup).length_eq]
      exact (List.dedup_sublist tv).length_le
    rw [hcontra] at h1
    simp at h1
    omega

/-- Every sklearn call the encoder loop logs is a transform, never a fit. -/
theorem encodeFold_log_no_fit :
    ∀ (encoders : List (String × LabelEncoder)) (acc : DataFrame × List SkCall),
      (∀ c ∈ acc.2, c.isFitCall = false) →
      ∀ c ∈ (encoders.foldl encodeStep acc).2, c.isFitCall = false
  | [], _, hacc => hacc
  | p :: ps, acc, hacc => by
    rw [List.foldl_cons]
    refine encodeFold_log_no_fit ps _ ?_
    unfold encodeStep
    split
    · intro c hc
      rcases List.mem_append.mp hc with hl | hr
      · exact hacc c hl
      · rcases List.mem_singleton.mp hr with rfl
        rfl
    · exact hacc

/-- C8 (amended): the fitted preprocessing parameters are never changed
after fitting. The scaler is fit exactly once, on the training split:
scale_features logs one fit call, on X_train; its fitted state is a pure
function of X_train alone, independent of the test data; and the test
split is scaled by transform with those training-fit parameters. The
inference path predict_churn returns the persisted encoders and scaler
unchanged and its sklearn call log contains no fit or fit_transform. -/
theorem c8_fit_once_transform_only :
    (∀ x_train x_test : List (List ℚ),
      (scale_featuresI x_train x_test).1.2.2 = scalerFit x_train ∧
      (scale_featuresI x_train x_test).1.2.1
        = scalerTransformRows (scalerFit x_train) x_test ∧
      (scale_featuresI x_train x_test).2 = [SkCall.scFit x_train, SkCall.scTransform]) ∧
    (∀ x_train x_test1 x_test2 : List (List ℚ),
      (scale_featuresI x_train x_test1).1.2.2
        = (scale_featuresI x_train x_test2).1.2.2) ∧
    (∀ (df : DataFrame) (model : Model) (encoders : List (String × LabelEncoder))
        (scaler : Option ScalerState) (fns : List String),
      (predict_churnI df model encoders scaler fns).2.1 = (encoders, scaler) ∧
      ∀ call ∈ (predict_churnI df model encoders scaler fns).2.2,
        call.isFitCall = false) := by
  refine ⟨fun x_train x_test => ⟨rfl, rfl, rfl⟩, fun _ _ _ => rfl, ?_⟩
  intro df model encoders scaler fns
  constructor
  · cases scaler <;> rfl
  · intro call hcall
    have hlog1 : ∀ c ∈ (preprocess_inputI df encoders fns).2, SkCall.isFitCall c = false :=
      encodeFold_log_no_fit encoders (fillnaDf df, []) (by intro c hc; cases hc)
    cases scaler with
    | none =>
      rcases List.mem_append.mp hcall with hl | hr
      · exact hlog1 call hl
      · cases hr
    | some s =>
      rcases List.mem_append.mp hcall with hl | hr
      · exact hlog1 call hl
      · rcases List.mem_singleton.mp hr with rfl
        rfl

/-! ## C2 -/

/-- Columns of a batch whose first row is the given record and whose
remaining rows are the extra rows (one cell per record key, in key
order); dtypes are the record's inferred dtypes, as for a batch whose
rows share the record's schema. -/
def mkBatchCols : Record → List (List Val) → List (String × Col)
  | [], _ => []
  | p :: ps, extra =>
    (p.1, ⟨dtypeOfVal p.2, p.2 :: extra.map (fun row => row.headD Val.missing)⟩)
      :: mkBatchCols ps (extra.map List.tail)

/-- A batch holding the record as row 0 plus the extra rows. -/
def mkBatch (r : Record) (extra : List (List Val)) : DataFrame :=
  ⟨1 + extra.length, mkBatchCols r extra⟩

/-- A concrete stand-in estimator: the churn probability is the first
feature value. -/
def cexModel : Model :=
  ⟨fun row => row.headD 0, fun _ => 0⟩

/-- C2 counterexample: a record whose single numeric feature x is
missing. Scored alone, the one-row batch has an all-missing x column, so
the per-batch median is NaN and the cell stays missing (the model sees
the NaN slot). Scored as row 0 of a two-row batch whose other row has
x = 1, the batch median 1 is imputed into the record's cell, and the
model sees 1. The two probabilities differ, refuting numerical identity
of the single-record and batch paths for identical records. -/
theorem c2_counterexample :
    (predict_single_customer [("x", Val.missing)] cexModel [] none ["x"]).churn_probability
      = 0 ∧
    (predict_churn (mkBatch [("x", Val.missing)] [[Val.num 1]])
        cexModel [] none ["x"]).2.headD 0 = 1 ∧
    ((0 : ℚ) ≠ 1) := by
  refine ⟨by decide, by decide, by norm_num⟩

/-- Head alignment of two named columns: same name, same dtype, and the
same, present, first cell. Row 0 of a batch is aligned this way with the
one-row frame of the record it came from, and every preprocessing stage
preserves the alignment. -/
def HA (p q : String × Col) : Prop :=
  p.1 = q.1 ∧ p.2.dtype = q.2.dtype ∧ p.2.cells.head? = q.2.cells.head? ∧
    (p.2.cells.head?).isSome = true

/-- Helper: the optional head of a mapped list. -/
theorem head?_map {α β : Type} (f : α → β) (l : List α) :
    (l.map f).head? = l.head?.map f := by
  cases l <;> rfl

/-- fillna of a non-missing cell (or any cell of an object column) does
not depend on the imputation median. -/
theorem fillnaCell_eq_of (d : Dtype) (m1 m2 : Option ℚ) (v : Val)
    (h : d = Dtype.numeric → v ≠ Val.missing) :
    fillnaCell d m1 v = fillnaCell d m2 v := by
  cases v with
  | num q => rfl
  | str s => rfl
  | missing =>
    cases d with
    | obj => rfl
    | numeric => exact absurd rfl (h rfl)

/-- After fillna, the one-row frame of a record with no missing numeric
cells is head-aligned with any batch holding the record as row 0: the
batch-dependent medians only touch missing numeric cells. -/
theorem fillna_entry_HA :
    ∀ (r : Record) (extra : List (List Val)),
      (∀ p ∈ r, dtypeOfVal p.2 = Dtype.numeric → p.2 ≠ Val.missing) →
      List.Forall₂ HA (fillnaDf (recordToDf r)).cols (fillnaDf (mkBatch r extra)).cols
  | [], _, _ => List.Forall₂.nil
  | p :: ps, extra, h => by
    refine List.Forall₂.cons ⟨rfl, rfl, ?_, ?_⟩
      (fillna_entry_HA ps (extra.map List.tail)
        (fun q hq hd => h q (List.mem_cons_of_mem p hq) hd))
    · show (fillnaCol ⟨dtypeOfVal p.2, [p.2]⟩).cells.head?
        = (fillnaCol ⟨dtypeOfVal p.2,
            p.2 :: extra.map (fun row => row.headD Val.missing)⟩).cells.head?
      unfold fillnaCol
      rw [head?_map, head?_map]
      show some (fillnaCell _ _ p.2) = some (fillnaCell _ _ p.2)
      exact congrArg some
        (fillnaCell_eq_of (dtypeOfVal p.2) _ _ p.2 (h p (List.mem_cons_self p ps)))
    · rfl

/-- Head alignment makes column presence agree. -/
theorem findCol_isSome_HA (n : String) :
    ∀ (l1 l2 : List (String × Col)), List.Forall₂ HA l1 l2 →
      (findCol n l1).isSome = (findCol n l2).isSome
  | [], [], _ => rfl
  | [], _ :: _, h => nomatch h
  | _ :: _, [], h => nomatch h
  | p :: ps, q :: qs, h => by
    obtain ⟨hpq, htail⟩ := List.forall₂_cons.mp h
    unfold findCol
    by_cases hn : p.1 = n
    · rw [if_pos hn, if_pos (hpq.1 ▸ hn)]
      rfl
    · rw [if_neg hn, if_neg (fun e => hn (hpq.1 ▸ e))]
      exact findCol_isSome_HA n ps qs htail

/-- Head alignment relates the columns a lookup finds. -/
theorem findCol_rel_HA (n : String) :
    ∀ (l1 l2 : List (String × Col)), List.Forall₂ HA l1 l2 →
      (findCol n l1 = none ∧ findCol n l2 = none) ∨
      (∃ c1 c2, findCol n l1 = some c1 ∧ findCol n l2 = some c2 ∧ HA (n, c1) (n, c2))
  | [], [], _ => Or.inl ⟨rfl, rfl⟩
  | [], _ :: _, h => nomatch h
  | _ :: _, [], h => nomatch h
  | p :: ps, q :: qs, h => by
    obtain ⟨hpq, htail⟩ := List.forall₂_cons.mp h
    unfold findCol
    by_cases hn : p.1 = n
    · rw [if_pos hn, if_pos (hpq.1 ▸ hn)]
      exact Or.inr ⟨p.2, q.2, rfl, rfl, rfl, hpq.2.1, hpq.2.2⟩
    · rw [if_neg hn, if_neg (fun e => hn (hpq.1 ▸ e))]
      exact findCol_rel_HA n ps qs htail

/-- Mapping head-alignment-preserving functions over aligned columns. -/
theorem forall₂_map_pair (f g : String × Col → String × Col)
    (h : ∀ a b, HA a b → HA (f a) (g b)) :
    ∀ (l1 l2 : List (String × Col)), List.Forall₂ HA l1 l2 →
      List.Forall₂ HA (l1.map f) (l2.map g)
  | [], [], _ => List.Forall₂.nil
  | [], _ :: _, hf => nomatch hf
  | _ :: _, [], hf => nomatch hf
  | p :: ps, q :: qs, hf => by
    obtain ⟨hpq, ht⟩ := List.forall₂_cons.mp hf
    exact List.Forall₂.cons (h p q hpq) (forall₂_map_pair f g h ps qs ht)

/-- Appending aligned column lists. -/
theorem forall₂_append_HA :
    ∀ {l1 l2 m1 m2 : List (String × Col)}, List.Forall₂ HA l1 l2 →
      List.Forall₂ HA m1 m2 → List.Forall₂ HA (l1 ++ m1) (l2 ++ m2)
  | [], [], _, _, h1, h2 => h2
  | [], _ :: _, _, _, h1, _ => nomatch h1
  | _ :: _, [], _, _, h1, _ => nomatch h1
  | p :: ps, q :: qs, _, _, h1, h2 => by
    obtain ⟨hpq, ht⟩ := List.forall₂_cons.mp h1
    exact List.Forall₂.cons hpq (forall₂_append_HA ht h2)

/-- One encoder-loop iteration preserves head alignment. -/
theorem encodeStep_HA (p : String × LabelEncoder)
    (a1 a2 : DataFrame × List SkCall)
    (h : List.Forall₂ HA a1.1.cols a2.1.cols) :
    List.Forall₂ HA (encodeStep a1 p).1.cols (encodeStep a2 p).1.cols := by
  unfold encodeStep
  have hsome := findCol_isSome_HA p.1 _ _ h
  by_cases hc : (findCol p.1 a1.1.cols).isSome
  · rw [if_pos hc, if_pos (hsome ▸ hc)]
    refine forall₂_map_pair _ _ ?_ _ _ h
    intro a b hab
    by_cases ha : a.1 = p.1
    · rw [if_pos ha, if_pos (hab.1 ▸ ha)]
      refine ⟨hab.1, rfl, ?_, ?_⟩
      · show (a.2.cells.map _).head? = (b.2.cells.map _).head?
        rw [head?_map, head?_map, hab.2.2.1]
      · show ((a.2.cells.map _).head?).isSome = true
        rw [head?_map]
        cases hh : a.2.cells.head? with
        | none =>
          have hs := hab.2.2.2
          rw [hh] at hs
          exact absurd hs (by simp)
        | some v => rfl
    · rw [if_neg ha, if_neg (fun e => ha (hab.1 ▸ e))]
      exact hab
  · rw [if_neg hc, if_neg (hsome ▸ hc)]
    exact h

/-- The whole encoder loop preserves head alignment. -/
theorem encodeFold_HA :
    ∀ (e : List (String × LabelEncoder)) (a1 a2 : DataFrame × List SkCall),
      List.Forall₂ HA a1.1.cols a2.1.cols →
      List.Forall₂ HA ((e.foldl encodeStep a1).1.cols) ((e.foldl encodeStep a2).1.cols)
  | [], _, _, h => h
  | p :: ps, a1, a2, h => by
    rw [List.foldl_cons, List.foldl_cons]
    exact encodeFold_HA ps _ _ (encodeStep_HA p a1 a2 h)

/-- The head of a nonempty zero column. -/
theorem zeroCol_head (n : Nat) (h : 0 < n) :
    (zeroCol n).cells.head? = some (Val.num 0) := by
  cases n with
  | zero => exact absurd h (lt_irrefl 0)
  | succ k => rfl

/-- One sentinel-fill iteration preserves head alignment. -/
theorem zeroFillStep_HA (c : String) (d1 d2 : DataFrame)
    (h : List.Forall₂ HA d1.cols d2.cols) (h1 : 0 < d1.nrows) (h2 : 0 < d2.nrows) :
    List.Forall₂ HA (zeroFillStep d1 c).cols (zeroFillStep d2 c).cols := by
  unfold zeroFillStep setCol
  have hsome := findCol_isSome_HA c _ _ h
  have hzz : HA (c, zeroCol d1.nrows) (c, zeroCol d2.nrows) :=
    ⟨rfl, rfl, by rw [zeroCol_head _ h1, zeroCol_head _ h2], by rw [zeroCol_head _ h1]; rfl⟩
  by_cases hc : (findCol c d1.cols).isSome
  · rw [if_pos hc, if_pos (hsome ▸ hc)]
    refine forall₂_map_pair _ _ ?_ _ _ h
    intro a b hab
    by_cases ha : a.1 = c
    · rw [if_pos ha, if_pos (hab.1 ▸ ha)]
      exact ⟨hab.1, hzz.2.1, hzz.2.2.1, hzz.2.2.2⟩
    · rw [if_neg ha, if_neg (fun e => ha (hab.1 ▸ e))]
      exact hab
  · rw [if_neg hc, if_neg (hsome ▸ hc)]
    exact forall₂_append_HA h (List.Forall₂.cons hzz List.Forall₂.nil)

/-- The whole sentinel-fill loop preserves head alignment. -/
theorem zeroFillFold_HA :
    ∀ (ms : List String) (d1 d2 : DataFrame),
      List.Forall₂ HA d1.cols d2.cols → 0 < d1.nrows → 0 < d2.nrows →
      List.Forall₂ HA ((ms.foldl zeroFillStep d1).cols) ((ms.foldl zeroFillStep d2).cols)
  | [], _, _, h, _, _ => h
  | m :: ms, d1, d2, h, h1, h2 => by
    rw [List.foldl_cons, List.foldl_cons]
    refine zeroFillFold_HA ms _ _ (zeroFillStep_HA m d1 d2 h h1 h2) ?_ ?_
    · rw [zeroFillStep, setCol_nrows]
      exact h1
    · rw [zeroFillStep, setCol_nrows]
      exact h2

/-- Head-aligned frames agree on which expected features are missing. -/
theorem filter_isNone_eq (fns : List String) (l1 l2 : List (String × Col))
    (h : List.Forall₂ HA l1 l2) :
    fns.filter (fun c => (findCol c l1).isNone)
      = fns.filter (fun c => (findCol c l2).isNone) := by
  apply List.filter_congr
  intro c _
  rcases findCol_rel_HA c l1 l2 h with ⟨e1, e2⟩ | ⟨c1, c2, e1, e2, _⟩
  · rw [e1, e2]
  · rw [e1, e2]
    rfl

/-- Column projection preserves head alignment. -/
theorem selectCols_HA (d1 d2 : DataFrame)
    (h : List.Forall₂ HA d1.cols d2.cols) (h1 : 0 < d1.nrows) (h2 : 0 < d2.nrows) :
    ∀ fns : List String,
      List.Forall₂ HA (selectCols d1 fns).cols (selectCols d2 fns).cols
  | [] => List.Forall₂.nil
  | n :: ns => by
    refine List.Forall₂.cons ?_ (selectCols_HA d1 d2 h h1 h2 ns)
    show HA (n, (findCol n d1.cols).getD (zeroCol d1.nrows))
      (n, (findCol n d2.cols).getD (zeroCol d2.nrows))
    rcases findCol_rel_HA n d1.cols d2.cols h with ⟨e1, e2⟩ | ⟨c1, c2, e1, e2, hc⟩
    · rw [e1, e2]
      refine ⟨rfl, rfl, ?_, ?_⟩
      · show (zeroCol d1.nrows).cells.head? = (zeroCol d2.nrows).cells.head?
        rw [zeroCol_head _ h1, zeroCol_head _ h2]
      · show ((zeroCol d1.nrows).cells.head?).isSome = true
        rw [zeroCol_head _ h1]
        rfl
    · rw [e1, e2]
      exact hc

/-- The float row a model sees for row 0 of a frame. -/
def row0 (df : DataFrame) : List ℚ :=
  df.cols.map (fun p => valToQ (p.2.cells.getD 0 Val.missing))

/-- Head-aligned frames present the same row 0 to the model. -/
theorem row0_eq_of_HA :
    ∀ (l1 l2 : List (String × Col)), List.Forall₂ HA l1 l2 →
      l1.map (fun p => valToQ (p.2.cells.getD 0 Val.missing))
        = l2.map (fun p => valToQ (p.2.cells.getD 0 Val.missing))
  | [], [], _ => rfl
  | [], _ :: _, h => nomatch h
  | _ :: _, [], h => nomatch h
  | p :: ps, q :: qs, h => by
    obtain ⟨hpq, ht⟩ := List.forall₂_cons.mp h
    simp only [List.map_cons]
    have he : valToQ (p.2.cells.getD 0 Val.missing)
        = valToQ (q.2.cells.getD 0 Val.missing) := by
      rw [getD_zero_eq_head, getD_zero_eq_head, hpq.2.2.1]
    exact congr (congrArg List.cons he) (row0_eq_of_HA ps qs ht)

/-- The rows of a nonempty frame start with row 0. -/
theorem toRows_cons (df : DataFrame) (h : 0 < df.nrows) :
    ∃ rest, toRows df = row0 df :: rest := by
  unfold toRows row0
  cases hn : df.nrows with
  | zero => rw [hn] at h; exact absurd h (lt_irrefl 0)
  | succ k =>
    rw [List.range_succ_eq_map, List.map_cons]
    exact ⟨_, rfl⟩

/-- A one-row frame has exactly its row 0. -/
theorem toRows_single (df : DataFrame) (h : df.nrows = 1) :
    toRows df = [row0 df] := by
  unfold toRows row0
  rw [h]
  rfl

/-- C2 (amended): for a record with no missing numeric values, the
single-record path yields the same churn probability as scoring the
record as row 0 of any larger batch with the same schema; records with
missing numeric cells can differ, because imputation medians are
recomputed per batch (see the counterexample). -/
theorem c2_single_matches_batch (r : Record) (extra : List (List Val))
    (model : Model) (encoders : List (String × LabelEncoder))
    (scaler : Option ScalerState) (fns : List String)
    (hnm : ∀ p ∈ r, dtypeOfVal p.2 = Dtype.numeric → p.2 ≠ Val.missing) :
    (predict_single_customer r model encoders scaler fns).churn_probability
      = (predict_churn (mkBatch r extra) model encoders scaler fns).2.headD 0 := by
  have h0 : List.Forall₂ HA (fillnaDf (recordToDf r)).cols
      (fillnaDf (mkBatch r extra)).cols :=
    fillna_entry_HA r extra hnm
  have hA2 : List.Forall₂ HA
      ((encoders.foldl encodeStep (fillnaDf (recordToDf r), ([] : List SkCall))).1.cols)
      ((encoders.foldl encodeStep (fillnaDf (mkBatch r extra), ([] : List SkCall))).1.cols) :=
    encodeFold_HA encoders _ _ h0
  have hn2a : (encoders.foldl encodeStep (fillnaDf (recordToDf r), ([] : List SkCall))).1.nrows
      = 1 := encodeFold_nrows encoders _
  have hn2b : (encoders.foldl encodeStep (fillnaDf (mkBatch r extra), ([] : List SkCall))).1.nrows
      = 1 + extra.length := encodeFold_nrows encoders _
  have hms : (fns.filter (fun c => (findCol c
        (encoders.foldl encodeStep (fillnaDf (recordToDf r), ([] : List SkCall))).1.cols).isNone))
      = (fns.filter (fun c => (findCol c
        (encoders.foldl encodeStep (fillnaDf (mkBatch r extra), ([] : List SkCall))).1.cols).isNone)) :=
    filter_isNone_eq fns _ _ hA2
  have hx : List.Forall₂ HA
      (preprocess_input (recordToDf r) encoders fns).cols
      (preprocess_input (mkBatch r extra) encoders fns).cols := by
    unfold preprocess_input applyEncoders applyEncodersI
    refine selectCols_HA _ _ ?_ ?_ ?_ fns
    · rw [← hms]
      exact zeroFillFold_HA _ _ _ hA2 (by rw [hn2a]; omega) (by rw [hn2b]; omega)
    · rw [zeroFill_fold_nrows, hn2a]
      omega
    · rw [← hms, zeroFill_fold_nrows, hn2b]
      omega
  have hnx1 : (preprocess_input (recordToDf r) encoders fns).nrows = 1 := by
    unfold preprocess_input applyEncoders applyEncodersI
    show (List.foldl zeroFillStep _ _).nrows = 1
    rw [zeroFill_fold_nrows, hn2a]
  have hnx2 : 0 < (preprocess_input (mkBatch r extra) encoders fns).nrows := by
    unfold preprocess_input applyEncoders applyEncodersI
    show 0 < (List.foldl zeroFillStep _ _).nrows
    rw [zeroFill_fold_nrows, hn2b]
    omega
  have hrow : row0 (preprocess_input (recordToDf r) encoders fns)
      = row0 (preprocess_input (mkBatch r extra) encoders fns) :=
    row0_eq_of_HA _ _ hx
  have ht1 : toRows (preprocess_input (recordToDf r) encoders fns)
      = [row0 (preprocess_input (recordToDf r) encoders fns)] :=
    toRows_single _ hnx1
  obtain ⟨rest, ht2⟩ := toRows_cons (preprocess_input (mkBatch r extra) encoders fns) hnx2
  show ((match scaler with
      | some s => scalerTransformRows s (toRows (preprocess_input (recordToDf r) encoders fns))
      | none => toRows (preprocess_input (recordToDf r) encoders fns)).map model.proba).headD 0
    = ((match scaler with
      | some s => scalerTransformRows s (toRows (preprocess_input (mkBatch r extra) encoders fns))
      | none => toRows (preprocess_input (mkBatch r extra) encoders fns)).map model.proba).headD 0
  rw [ht1, ht2, hrow]
  cases scaler with
  | none => rfl
  | some s => rfl

/-- Witness for C2 at a concrete record and a two-row batch. -/
theorem c2_witness :
    (∀ p ∈ ([("x", Val.num 1)] : Record),
      dtypeOfVal p.2 = Dtype.numeric → p.2 ≠ Val.missing) ∧
    (predict_single_customer [("x", Val.num 1)] cexModel [] none ["x"]).churn_probability
      = (predict_churn (mkBatch [("x", Val.num 1)] [[Val.num 5]])
          cexModel [] none ["x"]).2.headD 0 :=
  ⟨by decide,
   c2_single_matches_batch [("x", Val.num 1)] [[Val.num 5]] cexModel [] none ["x"]
     (by decide)⟩

end Churn
